import Mathlib

/-!
Verification development for the `n8n-nodes-redis-advanced` node
(`nodes/RedisEnhanced/RedisEnhanced.node.ts` and `nodes/RedisEnhanced/utils.ts`).

The TypeScript source is embedded shallowly:

* JavaScript values flowing through the node are modelled by the inductive
  type `J` (null, NaN, booleans, numbers as rationals, bigints, strings,
  arrays, objects as ordered association lists).
* The Redis client is modelled as a structure of response functions
  (`Client`), one per client method used by the node, exactly like the
  jest mocks in the repository's test-suite: a call either yields a value
  or rejects with an error message.  Command invocations performed by the
  value-marshalling layer are logged as `Call` values.
* JavaScript runtime builtins that the node calls but that are not part of
  the repository (`JSON.parse`, `JSON.stringify`, lodash `set`) are
  modelled as oracle functions carried in a `World` structure.
* `execute` is modelled by `redisExecute`, which returns the number of
  `connect`/`ping`/`quit` calls performed plus either the returned batch
  or the propagated `NodeOperationError`.

String manipulation is performed on `String.data` character lists so that
every definition evaluates by kernel reduction on concrete inputs.
-/

/-- A JavaScript value as it flows through the node: JSON values plus the
JS-specific `NaN` and `bigint` cases.  Objects are ordered association
lists, matching JS property-insertion order. -/
inductive J where
  | null
  | nan
  | bool (b : Bool)
  | num (q : ℚ)
  | big (n : ℤ)
  | str (s : String)
  | arr (xs : List J)
  | obj (fs : List (String × J))

/-- JS object property assignment `o[k] = v`: updates an existing key in
place (keeping its position) or appends a fresh one. -/
def objSet (o : List (String × J)) (k : String) (v : J) : List (String × J) :=
  if o.any (fun p => p.1 == k) then
    o.map (fun p => if p.1 == k then (k, v) else p)
  else
    o ++ [(k, v)]

/-- Same assignment semantics for string-valued records (used for the
`mset` argument object). -/
def objSetS (o : List (String × String)) (k : String) (v : String) : List (String × String) :=
  if o.any (fun p => p.1 == k) then
    o.map (fun p => if p.1 == k then (k, v) else p)
  else
    o ++ [(k, v)]

/-- JS `String.prototype.split` with a single-character separator: splits
at every occurrence, keeping empty chunks (`"a::b".split(':') =
["a","","b"]`). -/
def splitChar (sep : Char) : List Char → List (List Char)
  | [] => [[]]
  | c :: rest =>
    let r := splitChar sep rest
    if c == sep then [] :: r
    else
      match r with
      | h :: t => (c :: h) :: t
      | [] => [[c]]

/-- `s.split(sep)` on strings, via `splitChar`. -/
def jsSplit (sep : Char) (s : String) : List String :=
  (splitChar sep s.data).map String.mk

/-- The whitespace class of JS `\s` (the ASCII part; no claim involves
unicode whitespace). -/
def isWsJS (c : Char) : Bool :=
  c == ' ' || c == '\t' || c == '\n' || c == '\r' || c == '\x0b' || c == '\x0c'

/-- JS `String.prototype.trim`: strip whitespace from both ends. -/
def jsTrim (s : String) : String :=
  String.mk (((s.data.dropWhile isWsJS).reverse.dropWhile isWsJS).reverse)

/-- `str.split(/\s+/).filter((t) => t.length > 0)` as used for all
space-delimited list parameters: split on whitespace runs and drop empty
tokens. -/
def splitWs (s : String) : List String :=
  ((s.data.splitOnP isWsJS).filter (fun t => !t.isEmpty)).map String.mk

/-- Numeric value of a list of decimal digits. -/
def digitsToNat (ds : List Char) : ℕ :=
  ds.foldl (fun a c => a * 10 + (c.toNat - '0'.toNat)) 0

/-- Model of the JS `parseFloat` builtin on the decimal literals this code
feeds it: an optional sign, integer digits, and an optional fraction after
the first `.`; parsing stops at the first character that cannot extend the
literal (so `"6.2.14"` parses as `6.2`).  Exponent suffixes and leading
whitespace are not modelled; no claim depends on them.  Returns `none`
when no digits are consumed, which `parseFloat` reports as `NaN`. -/
def parseFloatQ (s : String) : Option ℚ :=
  let cs := s.data
  let signed : ℤ × List Char :=
    match cs with
    | '-' :: t => (-1, t)
    | '+' :: t => (1, t)
    | _ => (1, cs)
  let intD := signed.2.takeWhile Char.isDigit
  let rest := signed.2.dropWhile Char.isDigit
  let fracD : List Char :=
    match rest with
    | '.' :: t => t.takeWhile Char.isDigit
    | _ => []
  if intD.isEmpty && fracD.isEmpty then none
  else
    some (mkRat (signed.1 * (digitsToNat (intD ++ fracD) : ℤ)) (10 ^ fracD.length))

/-- `parseFloat` as a JS value: a number, or `NaN` when nothing parses. -/
def parseFloat (s : String) : J :=
  match parseFloatQ s with
  | some q => .num q
  | none => .nan

/-- The test `value.match(/^[\d\.]+$/) !== null` from `getParsedValue`:
the string is non-empty and every character is a decimal digit or a dot
(the regex puts no bound on the number of dots). -/
def numericPattern (value : String) : Bool :=
  (!value.data.isEmpty) && value.data.all (fun c => c.isDigit || c == '.')

/-- Embeds `getParsedValue` (utils.ts): values matching `/^[\d\.]+$/` are
handed to `parseFloat`, everything else is kept as a string. -/
def getParsedValue (value : String) : J :=
  if numericPattern value then parseFloat value else .str value

/-- `true` exactly on the string results of `getParsedValue`. -/
def J.isStrB : J → Bool
  | .str _ => true
  | _ => false

/-- One comma-separated `k=v` pair list from a report line
(`value.split(',')`, each chunk `split('=')`, nested values coerced with
`getParsedValue`).  A chunk without `=` makes the original JS crash on
`undefined.match`; that case is unreachable for the inputs considered and
is modelled as skipping the chunk. -/
def parseNestedPairs (value : String) : J :=
  .obj ((jsSplit ',' value).foldl
    (fun acc kv =>
      match jsSplit '=' kv with
      | k2 :: v2 :: _ => objSet acc k2 (getParsedValue v2)
      | _ => acc)
    [])

/-- `['#', ''].includes(line.charAt(0))`: the line is empty or starts with
`#`. -/
def skipLine (line : String) : Bool :=
  match line.data with
  | [] => true
  | c :: _ => c == '#'

/-- Embeds `convertInfoToObject` (utils.ts): split the report on newlines;
skip empty lines and lines starting with `#`; split each line on `:` and
skip it when there is no second part; trim the value; lines whose value
contains `=` become nested records, others are coerced with
`getParsedValue`.  Duplicate keys overwrite (last write wins), as JS
object assignment does. -/
def convertInfoToObject (stringData : String) : List (String × J) :=
  (jsSplit '\n' stringData).foldl
    (fun returnData line =>
      if skipLine line then returnData
      else
        match jsSplit ':' line with
        | key :: value :: _ =>
          let value := jsTrim value
          if value.data.any (fun c => c == '=') then
            objSet returnData key (parseNestedPairs value)
          else
            objSet returnData key (getParsedValue value)
        | _ => returnData)
    []

/-- The predicate used by the spec's wording for claim C6: only digits and
at most one decimal point. -/
def specDigitsAtMostOneDot (s : String) : Bool :=
  s.data.all (fun c => c.isDigit || c == '.') &&
    (s.data.filter (fun c => c == '.')).length ≤ 1

/-- The `value` argument of `setValue`
(`string | number | object | string[] | number[]` in the source). -/
inductive SVal where
  | s (v : String)
  | n (v : ℚ)
  | arr (vs : List String)
  | objv (fs : List (String × String))

/-- JS number-to-string conversion, modelled for integers only (the node
never formats a non-integer number on any path a claim depends on). -/
def qToStr (q : ℚ) : String :=
  if q.den = 1 then toString q.num else toString q.num ++ "#" ++ toString q.den

/-- JS `toString()` on a `setValue` value: identity on strings, `","`-join
on arrays, `"[object Object]"` on plain objects. -/
def svToString : SVal → String
  | .s v => v
  | .n v => qToStr v
  | .arr vs => String.intercalate "," vs
  | .objv _ => "[object Object]"

/-- The options object passed to `client.set`: optional `EX`, `NX`, `XX`. -/
structure SetOpts where
  ex : Option ℤ
  nx : Bool
  xx : Bool
  deriving DecidableEq

/-- The structured outcome returned by `setValue`: the `success`/
`operation`/`key` record, extended with `reason`/`message` on a failed
conditional write. -/
structure SetResult where
  success : Bool
  operation : String
  key : String
  reason : Option String
  message : Option String
  deriving DecidableEq

/-- Store commands issued by the value-marshalling layer and by the
`mset`/`zadd` handlers, recorded for the call-log claims. -/
inductive Call where
  | setStr (key value : String) (opts : SetOpts)
  | hSetField (key field value : String)
  | hSetPairs (key : String) (values : List String)
  | lSetIdx (key : String) (index : ℕ) (value : String)
  | sAddVal (key : String) (value : SVal)
  | expireCall (key : String) (ttl : ℤ)
  | mSetObj (pairs : List (String × String))
  | zAddMembers (key : String) (members : List (J × String))

/-- The Redis client, modelled as one response function per method used by
the node (exactly the shape of the jest mocks in the test-suite): each
call either resolves with a value or rejects with an error message.
Responses that the node forwards without inspecting them are typed `J`;
responses the node branches on get the precise shape. -/
structure Client where
  infoR : Except String String
  typeR : String → Except String String
  getR : String → Except String (Option String)
  hGetAllR : String → Except String J
  lRangeR : String → ℤ → ℤ → Except String J
  sMembersR : String → Except String J
  delR : String → Except String J
  setR : String → String → SetOpts → Except String (Option String)
  hSetFieldR : String → String → String → Except String J
  hSetPairsR : String → List String → Except String J
  lSetR : String → ℕ → String → Except String J
  sAddValR : String → SVal → Except String J
  expireR : String → ℤ → Except String J
  keysR : String → Except String (List String)
  incrR : String → Except String J
  publishR : String → String → Except String J
  lPushR : String → String → Except String J
  rPushR : String → String → Except String J
  lPopR : String → Except String (Option String)
  rPopR : String → Except String (Option String)
  existsR : List String → Except String J
  mGetR : List String → Except String (List (Option String))
  mSetR : List (String × String) → Except String J
  scanR : ℤ → String → ℤ → Except String (J × J)
  ttlR : String → Except String J
  persistR : String → Except String J
  expireAtR : String → ℤ → Except String J
  getSetR : String → String → Except String (Option String)
  appendR : String → String → Except String J
  strLenR : String → Except String J
  blPopR : String → ℤ → Except String (Option (String × String))
  brPopR : String → ℤ → Except String (Option (String × String))
  lLenR : String → Except String J
  sAddR : String → List String → Except String J
  sRemR : String → List String → Except String J
  sIsMemberR : String → String → Except String J
  sCardR : String → Except String J
  zAddR : String → List (J × String) → Except String J
  zRemR : String → List String → Except String J
  zCardR : String → Except String J
  zRangeR : String → ℤ → ℤ → Except String J
  zRangeWithScoresR : String → ℤ → ℤ → Except String J
  sendCommandR : List String → Except String (Option String)
  hLenR : String → Except String J
  hKeysR : String → Except String J
  hValsR : String → Except String J
  hExistsR : String → String → Except String J
  evalR : String → List String → List String → Except String J

/-- JS runtime builtins used by the node but external to the repository,
as oracles: `JSON.parse` (errors carry the runtime's message),
`JSON.stringify`, and lodash `set` (dot-notation path assignment). -/
structure World where
  jsonParse : String → Except String J
  jsonStringify : J → String
  lodashSet : List (String × J) → String → J → List (String × J)

mutual
/-- JS value `toString()` as used on hash field values:
`"null"`/`"NaN"` spellings, `","`-join on arrays, `[object Object]` on
objects (calling `toString` on JS `null` actually crashes; that case is
not exercised). -/
def jToStr : J → String
  | .null => "null"
  | .nan => "NaN"
  | .bool b => cond b "true" "false"
  | .num q => qToStr q
  | .big n => toString n
  | .str s => s
  | .arr xs => String.intercalate "," (jToStrList xs)
  | .obj _ => "[object Object]"
def jToStrList : List J → List String
  | [] => []
  | x :: xs => jToStr x :: jToStrList xs
end

/-- `Object.keys` enumeration of a JS string: one entry per character,
keyed by its decimal index (`Object.keys("ab") = ["0","1"]`, values the
single characters). -/
def stringEntries (s : String) : List (String × String) :=
  s.data.enum.map (fun p => (toString p.1, String.mk [p.2]))

/-- `Object.keys(values)` / `values[key]!.toString()` enumeration of a
parsed JSON value: object fields in order, array elements keyed by index,
string characters keyed by index, nothing for primitives (enumerating JS
`null` crashes; not exercised). -/
def jsObjectEntries : J → List (String × String)
  | .obj fs => fs.map (fun p => (p.1, jToStr p.2))
  | .arr xs => xs.enum.map (fun p => (toString p.1, jToStr p.2))
  | .str s => stringEntries s
  | _ => []

/-- The `Object.keys` enumeration of a non-string `setValue` value used on
the hash/JSON path when the value did not need parsing. -/
def svEntries : SVal → List (String × String)
  | .s v => stringEntries v
  | .n _ => []
  | .arr vs => vs.enum.map (fun p => (toString p.1, p.2))
  | .objv fs => fs

/-- The type-resolution step at the top of `setValue`: explicit types pass
through; `automatic` (or absent) infers string/list/hash from the value's
shape and rejects anything else with the source's
`NodeOperationError`. -/
def resolveSetType (value : SVal) (type : Option String) : Except String String :=
  let auto : Except String String :=
    match value with
    | .s _ => .ok "string"
    | .arr _ => .ok "list"
    | .objv _ => .ok "hash"
    | .n _ => .error "Could not identify the type to set. Please set it manually!"
  match type with
  | none => auto
  | some "automatic" => auto
  | some t => .ok t

/-- The option object built for `client.set`: `EX` when an expiration is
requested with a positive TTL, `NX`/`XX` from the conditional mode. -/
def buildSetOpts (expire : Bool) (ttl : ℤ) (setMode : Option String) : SetOpts :=
  ⟨if expire && ttl > 0 then some ttl else none,
   setMode == some "nx",
   setMode == some "xx"⟩

/-- `Object.keys(setOptions).length > 0`. -/
def optsNonempty (o : SetOpts) : Bool :=
  o.ex.isSome || o.nx || o.xx

/-- The success record `setValue` returns at its end; the operation label
uses the set mode when one was passed (JS truthiness: an absent or empty
mode falls back to plain `SET`). -/
def successResult (setMode : Option String) (key : String) : SetResult :=
  ⟨true,
   (match setMode with
    | none => "SET"
    | some m => if m = "" then "SET" else "SET " ++ m.toUpper),
   key, none, none⟩

/-- The failure record returned when a conditional `SET NX`/`SET XX`
reports an unmet condition (the store answered `null`). -/
def condFailResult (setMode : Option String) (key : String) : SetResult :=
  let m := setMode.getD ""
  ⟨false,
   "SET " ++ m.toUpper,
   key,
   some (if m = "nx" then "key_already_exists" else "key_does_not_exist"),
   some ("SET " ++ m.toUpper ++ " condition not met: key \"" ++ key ++ "\" " ++
     (if m = "nx" then "already exists" else "does not exist"))⟩

/-- The string branch of `setValue`: one `client.set`, with the option
object when any option is present.  Returns `some result` when the
conditional write's unmet condition short-circuits `setValue` with the
failure record. -/
def stringWrite (cl : Client) (keyName valueStr : String) (expire : Bool) (ttl : ℤ)
    (setMode : Option String) : List Call × Except String (Option SetResult) :=
  let opts := buildSetOpts expire ttl setMode
  if optsNonempty opts then
    match cl.setR keyName valueStr opts with
    | .error e => ([.setStr keyName valueStr opts], .error e)
    | .ok r =>
      if r == none && (setMode == some "nx" || setMode == some "xx") then
        ([.setStr keyName valueStr opts], .ok (some (condFailResult setMode keyName)))
      else
        ([.setStr keyName valueStr opts], .ok none)
  else
    match cl.setR keyName valueStr ⟨none, false, false⟩ with
    | .error e => ([.setStr keyName valueStr ⟨none, false, false⟩], .error e)
    | .ok _ => ([.setStr keyName valueStr ⟨none, false, false⟩], .ok none)

/-- The per-field `hSet` loop of the hash/JSON path, stopping at the first
rejected call. -/
def runHSetFields (cl : Client) (keyName : String) :
    List (String × String) → List Call × Except String Unit
  | [] => ([], .ok ())
  | (f, v) :: rest =>
    match cl.hSetFieldR keyName f v with
    | .error e => ([.hSetField keyName f v], .error e)
    | .ok _ =>
      let r := runHSetFields cl keyName rest
      (.hSetField keyName f v :: r.1, r.2)

/-- The hash branch of `setValue`: with `valueIsJSON`, parse a string
value as JSON — falling back to the raw string (whose `Object.keys` are
its character indices) when parsing fails — and issue one `hSet` per
enumerated field; without it, split the stringified value on single
spaces and issue one `hSet` with the token array. -/
def hashWrite (w : World) (cl : Client) (keyName : String) (value : SVal)
    (valueIsJSON : Option Bool) : List Call × Except String Unit :=
  if valueIsJSON == some true then
    let entries :=
      match value with
      | .s str =>
        match w.jsonParse str with
        | .ok j => jsObjectEntries j
        | .error _ => stringEntries str
      | v => svEntries v
    runHSetFields cl keyName entries
  else
    let values := jsSplit ' ' (svToString value)
    match cl.hSetPairsR keyName values with
    | .error e => ([.hSetPairs keyName values], .error e)
    | .ok _ => ([.hSetPairs keyName values], .ok ())

/-- The element view the list branch iterates over
(`(value as string[])`): arrays as-is; a string's `length`/indexing sees
its characters; other values have no `length`, so the loop body never
runs. -/
def svListView : SVal → List String
  | .arr vs => vs
  | .s str => str.data.map (fun c => String.mk [c])
  | _ => []

/-- The per-index `lSet` loop of the list branch, stopping at the first
rejected call. -/
def runLSets (cl : Client) (keyName : String) (start : ℕ) :
    List String → List Call × Except String Unit
  | [] => ([], .ok ())
  | v :: rest =>
    match cl.lSetR keyName start v with
    | .error e => ([.lSetIdx keyName start v], .error e)
    | .ok _ =>
      let r := runLSets cl keyName (start + 1) rest
      (.lSetIdx keyName start v :: r.1, r.2)

/-- The non-string write paths of `setValue` (none of which reads the
conditional set mode): hash, list (`lSet` per index), sets (a single
`sAdd` with the raw value); any other resolved type issues no write at
all and falls through. -/
def nonStringWrite (w : World) (cl : Client) (keyName : String) (value : SVal)
    (t : String) (valueIsJSON : Option Bool) : List Call × Except String Unit :=
  if t = "hash" then hashWrite w cl keyName value valueIsJSON
  else if t = "list" then runLSets cl keyName 0 (svListView value)
  else if t = "sets" then
    match cl.sAddValR keyName value with
    | .error e => ([.sAddVal keyName value], .error e)
    | .ok _ => ([.sAddVal keyName value], .ok ())
  else ([], .ok ())

/-- The trailing expiration step of `setValue`: a separate `expire` call
when an expiration with positive TTL was requested on a non-string
type. -/
def expirePhase (cl : Client) (keyName : String) (expire : Bool) (ttl : ℤ)
    (t : String) : List Call × Except String Unit :=
  if expire && ttl > 0 && t != "string" then
    match cl.expireR keyName ttl with
    | .error e => ([.expireCall keyName ttl], .error e)
    | .ok _ => ([.expireCall keyName ttl], .ok ())
  else ([], .ok ())

/-- Embeds `setValue` (utils.ts): resolve the type, perform the
type-specific write (the string branch can short-circuit with the
conditional-failure record), run the non-string expiration step, and
return the success record.  The call log pairs the outcome with the store
commands issued, in order. -/
def setValue (w : World) (cl : Client) (keyName : String) (value : SVal)
    (expire : Bool) (ttl : ℤ) (type : Option String) (valueIsJSON : Option Bool)
    (setMode : Option String) : List Call × Except String SetResult :=
  match resolveSetType value type with
  | .error e => ([], .error e)
  | .ok t =>
    if t = "string" then
      match stringWrite cl keyName (svToString value) expire ttl setMode with
      | (cs, .error e) => (cs, .error e)
      | (cs, .ok (some failRes)) => (cs, .ok failRes)
      | (cs, .ok none) => (cs, .ok (successResult setMode keyName))
    else
      match nonStringWrite w cl keyName value t valueIsJSON with
      | (cs, .error e) => (cs, .error e)
      | (cs, .ok ()) =>
        match expirePhase cl keyName expire ttl t with
        | (cs2, .error e) => (cs ++ cs2, .error e)
        | (cs2, .ok ()) => (cs ++ cs2, .ok (successResult setMode keyName))

/-- Embeds `getValue` (utils.ts): resolve the type (introspecting with
`client.type` for `automatic`/absent), then fetch with the
primitive-specific read; unknown types yield `undefined`, which every
caller treats as `null`. -/
def getValue (cl : Client) (keyName : String) (type : Option String) : Except String J :=
  let withType : String → Except String J := fun t =>
    if t = "string" then
      match cl.getR keyName with
      | .error e => .error e
      | .ok (some s) => .ok (.str s)
      | .ok none => .ok .null
    else if t = "hash" then cl.hGetAllR keyName
    else if t = "list" then cl.lRangeR keyName 0 (-1)
    else if t = "sets" then cl.sMembersR keyName
    else .ok .null
  match type with
  | none =>
    (match cl.typeR keyName with
     | .error e => .error e
     | .ok t => withType t)
  | some "automatic" =>
    (match cl.typeR keyName with
     | .error e => .error e
     | .ok t => withType t)
  | some t => withType t

/-- A parameter value as handed over by the host runtime's
`getNodeParameter`. -/
inductive ParamVal where
  | str (s : String)
  | int (n : ℤ)
  | bool (b : Bool)
  | obj (fs : List (String × ParamVal))

/-- The `as string` view of a parameter (JS string coercion for the
non-string cases, none of which a claim exercises). -/
def ParamVal.asStr : ParamVal → String
  | .str s => s
  | .int n => toString n
  | .bool b => cond b "true" "false"
  | .obj _ => "[object Object]"

/-- The `as number` view of a parameter. -/
def ParamVal.asInt : ParamVal → ℤ
  | .int n => n
  | _ => 0

/-- The `as boolean` view of a parameter (JS truthiness for the other
cases). -/
def ParamVal.asBool : ParamVal → Bool
  | .bool b => b
  | .str s => !s.data.isEmpty
  | .int n => n != 0
  | .obj _ => true

/-- Property lookup on an options-collection parameter. -/
def ParamVal.field (p : ParamVal) (name : String) : Option ParamVal :=
  match p with
  | .obj fs => (fs.find? (fun q => q.1 == name)).map (fun q => q.2)
  | _ => none

/-- `options.dotNotation === false`. -/
def dotNotationFalse (p : ParamVal) : Bool :=
  match p.field "dotNotation" with
  | some (.bool false) => true
  | _ => false

/-- A truthy string option (`if (options.indent) ...`): present and
coercing to a non-empty string. -/
def truthyStrField (p : ParamVal) (name : String) : String :=
  match p.field name with
  | some (.str s) => s
  | _ => ""

/-- The execution environment the host runtime provides to `execute`:
per-item parameter lookup (`getNodeParameter`; defaults the code passes
are applied by the host and folded into this function), the input items'
`json` payloads, and the caller's continue-on-fail flag. -/
structure Env where
  params : String → ℕ → ParamVal
  items : List (List (String × J))
  continueOnFail : Bool

/-- One record pushed onto `returnItems`: its `json` object and the
`pairedItem` index when the code attaches one. -/
structure OutRec where
  json : List (String × J)
  pairedItem : Option ℕ

/-- A propagated `NodeOperationError`: the underlying message (preserved
by the wrapping constructor) and the attached item index, if any. -/
structure ExecErr where
  msg : String
  itemIndex : Option ℕ

/-- The observable outcome of one `execute` run: how many times the
connection was opened (`connect`), probed (`ping`) and released (`quit`),
and either the returned batch (`return [returnItems]`) or the thrown
error. -/
structure ExecResult where
  connectCount : ℕ
  pingCount : ℕ
  quitCount : ℕ
  outcome : Except ExecErr (List (List OutRec))

/-- `true` on resolved promises. -/
def exceptOkB {ε α : Type} : Except ε α → Bool
  | .ok _ => true
  | .error _ => false

/-- The input item at an index, as the loop reads `items[itemIndex]`. -/
def itemAt (env : Env) (idx : ℕ) : List (String × J) :=
  env.items.getD idx []

/-- The `delete` handler: `del` the key, pass the input item through. -/
def deleteBranch (cl : Client) (env : Env) (idx : ℕ) : Except String (List OutRec) :=
  let keyDelete := (env.params "key" idx).asStr
  match cl.delR keyDelete with
  | .error e => .error e
  | .ok _ => .ok [⟨itemAt env idx, none⟩]

/-- The `get` handler: `getValue` with the requested key type, `?? null`,
then place the value at `propertyName` (lodash `set` unless dot-notation
is disabled). -/
def getBranch (w : World) (cl : Client) (env : Env) (idx : ℕ) :
    Except String (List OutRec) :=
  let propertyName := (env.params "propertyName" idx).asStr
  let keyGet := (env.params "key" idx).asStr
  let keyType := (env.params "keyType" idx).asStr
  match getValue cl keyGet (some keyType) with
  | .error e => .error e
  | .ok value =>
    let options := env.params "options" idx
    let json :=
      if dotNotationFalse options then objSet [] propertyName value
      else w.lodashSet [] propertyName value
    .ok [⟨json, some idx⟩]

/-- One pass of the loop **inside** the `jsonset` handler (note: the
handler iterates over the whole input batch on every visit): validate the
value as JSON, build the `JSON.SET` command with the optional `NX`/`XX`
flag, and record key/path/result/success. -/
def jsonsetInner (w : World) (cl : Client) (env : Env) (i : ℕ) : Except String OutRec :=
  let key := (env.params "key" i).asStr
  let path := (env.params "path" i).asStr
  let value := (env.params "value" i).asStr
  let setMode := (env.params "setMode" i).asStr
  match w.jsonParse value with
  | .error e => .error ("Invalid JSON value: " ++ e)
  | .ok jsonValue =>
    let args := [key, path, w.jsonStringify jsonValue] ++
      (if setMode = "NX" then ["NX"] else if setMode = "XX" then ["XX"] else [])
    match cl.sendCommandR ("JSON.SET" :: args) with
    | .error e => .error e
    | .ok r =>
      .ok ⟨[("key", .str key), ("path", .str path),
            ("result", .str (match r with
              | some s => if s = "" then "OK" else s
              | none => "OK")),
            ("success", .bool r.isSome)], some i⟩

/-- One pass of the loop inside the `jsonget` handler: build the
`JSON.GET` command (path and truthy formatting options), parse the reply
(falsy replies become `null`, unparseable replies stay raw), and record
key/path/value/exists. -/
def jsongetInner (w : World) (cl : Client) (env : Env) (i : ℕ) : Except String OutRec :=
  let key := (env.params "key" i).asStr
  let path := (env.params "path" i).asStr
  let options := env.params "options" i
  let args := [key] ++ (if path = "" then [] else [path]) ++
    (let ind := truthyStrField options "indent"
     if ind = "" then [] else ["INDENT", ind]) ++
    (let nl := truthyStrField options "newline"
     if nl = "" then [] else ["NEWLINE", nl]) ++
    (let sp := truthyStrField options "space"
     if sp = "" then [] else ["SPACE", sp])
  match cl.sendCommandR ("JSON.GET" :: args) with
  | .error e => .error e
  | .ok r =>
    let parsedResult : J :=
      match r with
      | none => .null
      | some s =>
        if s = "" then .null
        else
          match w.jsonParse s with
          | .ok j => j
          | .error _ => .str s
    .ok ⟨[("key", .str key), ("path", .str path), ("value", parsedResult),
          ("exists", .bool r.isSome)], some i⟩

/-- The batch loop shared by the `jsonset`/`jsonget` handlers, with their
own inner try/catch: a failed pass appends the handler's error record and
continues when continue-on-fail is set, and otherwise quits the client
(counted in the first component) and rethrows, which the outer per-item
catch will see. -/
def jsonOpLoop (inner : ℕ → Except String OutRec) (errRec : String → ℕ → OutRec)
    (cof : Bool) : List ℕ → ℕ × Except String (List OutRec)
  | [] => (0, .ok [])
  | i :: rest =>
    match inner i with
    | .ok rec =>
      let r := jsonOpLoop inner errRec cof rest
      (r.1, r.2.map (fun recs => rec :: recs))
    | .error e =>
      if cof then
        let r := jsonOpLoop inner errRec cof rest
        (r.1, r.2.map (fun recs => errRec e i :: recs))
      else (1, .error e)

/-- The `jsonset` handler as visited by the per-item loop: it loops over
every input item itself. -/
def jsonsetBranch (w : World) (cl : Client) (env : Env) :
    ℕ × Except String (List OutRec) :=
  jsonOpLoop (jsonsetInner w cl env) (fun e i => ⟨[("error", .str e)], some i⟩)
    env.continueOnFail (List.range env.items.length)

/-- The `jsonget` handler as visited by the per-item loop (its error
record also repeats the item's key). -/
def jsongetBranch (w : World) (cl : Client) (env : Env) :
    ℕ × Except String (List OutRec) :=
  jsonOpLoop (jsongetInner w cl env)
    (fun e i => ⟨[("error", .str e), ("key", .str ((env.params "key" i).asStr))], some i⟩)
    env.continueOnFail (List.range env.items.length)

/-- The value-collection loop of the `keys` handler
(`item.json[keyName] = await getValue(client, keyName)`). -/
def keysCollect (cl : Client) : List String → List (String × J) →
    Except String (List (String × J))
  | [], acc => .ok acc
  | k :: rest, acc =>
    match getValue cl k none with
    | .error e => .error e
    | .ok v => keysCollect cl rest (objSet acc k v)

/-- The `keys` handler: list the matching keys; either report them, or
fetch each key's value into one aggregated record. -/
def keysBranch (cl : Client) (env : Env) (idx : ℕ) : Except String (List OutRec) :=
  let keyPattern := (env.params "keyPattern" idx).asStr
  let getValues := (env.params "getValues" idx).asBool
  match cl.keysR keyPattern with
  | .error e => .error e
  | .ok ks =>
    if !getValues then .ok [⟨[("keys", .arr (ks.map .str))], none⟩]
    else
      match keysCollect cl ks [] with
      | .error e => .error e
      | .ok json => .ok [⟨json, some idx⟩]

/-- The failure/success record of `setValue` embedded into the output
item under `redis_result` (optional fields only present on failure). -/
def setResultToJ (r : SetResult) : J :=
  .obj ([("success", .bool r.success), ("operation", .str r.operation),
         ("key", .str r.key)] ++
    (match r.reason with
     | some x => [("reason", .str x)]
     | none => []) ++
    (match r.message with
     | some x => [("message", .str x)]
     | none => []))

/-- The `set` handler: read the parameters, run `setValue`, and merge
`redis_result` into the input item's payload. -/
def setBranch (w : World) (cl : Client) (env : Env) (idx : ℕ) :
    Except String (List OutRec) :=
  let keySet := (env.params "key" idx).asStr
  let value := (env.params "value" idx).asStr
  let keyType := (env.params "keyType" idx).asStr
  let valueIsJSON := (env.params "valueIsJSON" idx).asBool
  let expire := (env.params "expire" idx).asBool
  let ttl := (env.params "ttl" idx).asInt
  let setMode := (env.params "setMode" idx).asStr
  match (setValue w cl keySet (.s value) expire ttl (some keyType) (some valueIsJSON)
      (some setMode)).2 with
  | .error e => .error e
  | .ok r => .ok [⟨objSet (itemAt env idx) "redis_result" (setResultToJ r), some idx⟩]

/-- The dead `json.set` handler (its operation id is not in the dispatch
list, so this code is unreachable); faithfully passes the set mode in the
`type` position of `setValue`. -/
def jsonSetDeadBranch (w : World) (cl : Client) (env : Env) (idx : ℕ) :
    Except String (List OutRec) :=
  let keySet := (env.params "key" idx).asStr
  let value := (env.params "value" idx).asStr
  let expire := (env.params "expire" idx).asBool
  let ttl := (env.params "ttl" idx).asInt
  let setMode := (env.params "setMode" idx).asStr
  match (setValue w cl keySet (.s value) expire ttl (some setMode) none none).2 with
  | .error e => .error e
  | .ok r => .ok [⟨objSet (itemAt env idx) "redis_result" (setResultToJ r), some idx⟩]

/-- The pair-collection loop of the `mset` handler
(`msetObj[pairs[i]] = pairs[i + 1]` for even `i`). -/
def addPairs (acc : List (String × String)) : List String → List (String × String)
  | k :: v :: rest => addPairs (objSetS acc k v) rest
  | _ => acc

/-- The `mset` handler (standalone so its issued store calls can be
reasoned about): split the pair list on whitespace, reject an odd token
count before any store call, otherwise build the key/value object and
issue one `mSet`. -/
def msetBranch (cl : Client) (env : Env) (idx : ℕ) :
    List Call × Except String (List OutRec) :=
  let keyValuePairs := (env.params "keyValuePairs" idx).asStr
  let pairs := splitWs keyValuePairs
  if pairs.length % 2 != 0 then
    ([], .error "Key-value pairs must be even number of arguments")
  else
    let msetObj := addPairs [] pairs
    match cl.mSetR msetObj with
    | .error e => ([.mSetObj msetObj], .error e)
    | .ok _ => ([.mSetObj msetObj], .ok [⟨itemAt env idx, none⟩])

/-- The score/member pair list of the `zadd` handler
(`{score: parseFloat(pairs[i]), value: pairs[i + 1]}`). -/
def toScoreMembers : List String → List (J × String)
  | sc :: mem :: rest => (parseFloat sc, mem) :: toScoreMembers rest
  | _ => []

/-- The `members` array as it appears in the `zadd` handler's output
record. -/
def membersToJ (ms : List (J × String)) : J :=
  .arr (ms.map (fun p => .obj [("score", p.1), ("value", .str p.2)]))

/-- The `zadd` handler (standalone so its issued store calls can be
reasoned about): split the score/member list on whitespace, reject an odd
token count before any store call, otherwise issue one `zAdd`. -/
def zaddBranch (cl : Client) (env : Env) (idx : ℕ) :
    List Call × Except String (List OutRec) :=
  let sortedSet := (env.params "sortedSet" idx).asStr
  let scoreMembers := (env.params "scoreMembers" idx).asStr
  let pairs := splitWs scoreMembers
  if pairs.length % 2 != 0 then
    ([], .error "Score-member pairs must be even number of arguments")
  else
    let members := toScoreMembers pairs
    match cl.zAddR sortedSet members with
    | .error e => ([.zAddMembers sortedSet members], .error e)
    | .ok added =>
      ([.zAddMembers sortedSet members],
       .ok [⟨[("sortedSet", .str sortedSet), ("added", added),
              ("members", membersToJ members)], none⟩])

/-- The `incr` handler: increment, optionally expire, record the new
value under the key's own name. -/
def incrBranch (cl : Client) (env : Env) (idx : ℕ) : Except String (List OutRec) :=
  let keyIncr := (env.params "key" idx).asStr
  let expire := (env.params "expire" idx).asBool
  let ttl := (env.params "ttl" idx).asInt
  match cl.incrR keyIncr with
  | .error e => .error e
  | .ok incrementVal =>
    if expire && ttl > 0 then
      match cl.expireR keyIncr ttl with
      | .error e => .error e
      | .ok _ => .ok [⟨[(keyIncr, incrementVal)], none⟩]
    else .ok [⟨[(keyIncr, incrementVal)], none⟩]

/-- The `pop` handler: pop from the chosen end, best-effort JSON-decode a
truthy value, place it at `propertyName`. -/
def popBranch (w : World) (cl : Client) (env : Env) (idx : ℕ) :
    Except String (List OutRec) :=
  let redisList := (env.params "list" idx).asStr
  let tail := (env.params "tail" idx).asBool
  let propertyName := (env.params "propertyName" idx).asStr
  match (if tail then cl.rPopR redisList else cl.lPopR redisList) with
  | .error e => .error e
  | .ok value =>
    let outputValue : J :=
      match value with
      | none => .null
      | some s =>
        if s = "" then .str ""
        else
          match w.jsonParse s with
          | .ok j => j
          | .error _ => .str s
    let options := env.params "options" idx
    let json :=
      if dotNotationFalse options then objSet [] propertyName outputValue
      else w.lodashSet [] propertyName outputValue
    .ok [⟨json, some idx⟩]

/-- The `blpop`/`brpop` handlers: blocking pop, JSON-decode the popped
element (falling back to the raw string), record it plus the source list;
a `null` reply records `null`. -/
def bpopBranch (w : World) (popR : String → ℤ → Except String (Option (String × String)))
    (env : Env) (idx : ℕ) : Except String (List OutRec) :=
  let list := (env.params "list" idx).asStr
  let timeout := (env.params "timeout" idx).asInt
  let propertyName := (env.params "propertyName" idx).asStr
  match popR list timeout with
  | .error e => .error e
  | .ok (some kv) =>
    let outputValue : J :=
      match w.jsonParse kv.2 with
      | .ok j => j
      | .error _ => .str kv.2
    .ok [⟨objSet (objSet [] propertyName outputValue) "list" (.str kv.1), some idx⟩]
  | .ok none => .ok [⟨objSet [] propertyName .null, some idx⟩]

/-- The `eval` handler: split keys/args lists (empty parameters are falsy
and yield empty lists), run the script, and narrow a bigint result to a
plain number. -/
def evalBranch (cl : Client) (env : Env) (idx : ℕ) : Except String (List OutRec) :=
  let script := (env.params "script" idx).asStr
  let keys := (env.params "keys" idx).asStr
  let args := (env.params "args" idx).asStr
  let keyArray := if keys = "" then [] else splitWs keys
  let argArray := if args = "" then [] else splitWs args
  match cl.evalR script keyArray argArray with
  | .error e => .error e
  | .ok result =>
    let serializedResult : J :=
      match result with
      | .big n => .num (mkRat n 1)
      | v => v
    .ok [⟨[("result", serializedResult)], none⟩]

/-- One visit of the per-item dispatch chain for one item index: the
result of the matched handler together with the number of `quit` calls
the handler itself performed (only the `jsonset`/`jsonget` handlers ever
quit from inside, on their non-isolated failure path).  An operation id
matching no branch pushes nothing. -/
def runBranch (w : World) (cl : Client) (env : Env) (op : String) (idx : ℕ) :
    ℕ × Except String (List OutRec) :=
  if op = "delete" then (0, deleteBranch cl env idx)
  else if op = "get" then (0, getBranch w cl env idx)
  else if op = "jsonset" then jsonsetBranch w cl env
  else if op = "jsonget" then jsongetBranch w cl env
  else if op = "keys" then (0, keysBranch cl env idx)
  else if op = "set" then (0, setBranch w cl env idx)
  else if op = "json.set" then (0, jsonSetDeadBranch w cl env idx)
  else if op = "incr" then (0, incrBranch cl env idx)
  else if op = "publish" then
    (0, match cl.publishR ((env.params "channel" idx).asStr)
          ((env.params "messageData" idx).asStr) with
        | .error e => .error e
        | .ok _ => .ok [⟨itemAt env idx, none⟩])
  else if op = "push" then
    (0, let redisList := (env.params "list" idx).asStr
        let messageData := (env.params "messageData" idx).asStr
        match (if (env.params "tail" idx).asBool then cl.rPushR redisList messageData
               else cl.lPushR redisList messageData) with
        | .error e => .error e
        | .ok _ => .ok [⟨itemAt env idx, none⟩])
  else if op = "pop" then (0, popBranch w cl env idx)
  else if op = "exists" then
    (0, let keyArray := splitWs ((env.params "keys" idx).asStr)
        match cl.existsR keyArray with
        | .error e => .error e
        | .ok existsCount =>
          .ok [⟨[("exists", existsCount), ("keys", .arr (keyArray.map .str))], none⟩])
  else if op = "mget" then
    (0, let keyArray := splitWs ((env.params "keys" idx).asStr)
        match cl.mGetR keyArray with
        | .error e => .error e
        | .ok values =>
          .ok [⟨keyArray.enum.foldl
            (fun acc p =>
              objSet acc p.2 (match (values.getD p.1 none) with
                | some s => .str s
                | none => .null))
            [], none⟩])
  else if op = "mset" then (0, (msetBranch cl env idx).2)
  else if op = "scan" then
    (0, let cursor := (env.params "cursor" idx).asInt
        let pattern := (env.params "pattern" idx).asStr
        let count := (env.params "count" idx).asInt
        match cl.scanR cursor pattern count with
        | .error e => .error e
        | .ok r => .ok [⟨[("cursor", r.1), ("keys", r.2)], none⟩])
  else if op = "ttl" then
    (0, let key := (env.params "key" idx).asStr
        match cl.ttlR key with
        | .error e => .error e
        | .ok v => .ok [⟨[("key", .str key), ("ttl", v)], none⟩])
  else if op = "persist" then
    (0, let key := (env.params "key" idx).asStr
        match cl.persistR key with
        | .error e => .error e
        | .ok v => .ok [⟨[("key", .str key), ("persisted", v)], none⟩])
  else if op = "expireat" then
    (0, let key := (env.params "key" idx).asStr
        let timestamp := (env.params "timestamp" idx).asInt
        match cl.expireAtR key timestamp with
        | .error e => .error e
        | .ok v => .ok [⟨[("key", .str key), ("set", v)], none⟩])
  else if op = "getset" then
    (0, let key := (env.params "key" idx).asStr
        let value := (env.params "value" idx).asStr
        let propertyName := (env.params "propertyName" idx).asStr
        match cl.getSetR key value with
        | .error e => .error e
        | .ok oldValue =>
          .ok [⟨objSet [] propertyName (match oldValue with
            | some s => .str s
            | none => .null), some idx⟩])
  else if op = "append" then
    (0, let key := (env.params "key" idx).asStr
        let value := (env.params "value" idx).asStr
        match cl.appendR key value with
        | .error e => .error e
        | .ok v => .ok [⟨[("key", .str key), ("newLength", v)], none⟩])
  else if op = "strlen" then
    (0, let key := (env.params "key" idx).asStr
        match cl.strLenR key with
        | .error e => .error e
        | .ok v => .ok [⟨[("key", .str key), ("length", v)], none⟩])
  else if op = "blpop" then (0, bpopBranch w cl.blPopR env idx)
  else if op = "brpop" then (0, bpopBranch w cl.brPopR env idx)
  else if op = "llen" then
    (0, let list := (env.params "list" idx).asStr
        match cl.lLenR list with
        | .error e => .error e
        | .ok v => .ok [⟨[("list", .str list), ("length", v)], none⟩])
  else if op = "sadd" then
    (0, let set := (env.params "set" idx).asStr
        let memberArray := splitWs ((env.params "members" idx).asStr)
        match cl.sAddR set memberArray with
        | .error e => .error e
        | .ok added =>
          .ok [⟨[("set", .str set), ("added", added),
                 ("members", .arr (memberArray.map .str))], none⟩])
  else if op = "srem" then
    (0, let set := (env.params "set" idx).asStr
        let memberArray := splitWs ((env.params "members" idx).asStr)
        match cl.sRemR set memberArray with
        | .error e => .error e
        | .ok removed =>
          .ok [⟨[("set", .str set), ("removed", removed),
                 ("members", .arr (memberArray.map .str))], none⟩])
  else if op = "sismember" then
    (0, let set := (env.params "set" idx).asStr
        let member := (env.params "member" idx).asStr
        match cl.sIsMemberR set member with
        | .error e => .error e
        | .ok v =>
          .ok [⟨[("set", .str set), ("member", .str member), ("isMember", v)], none⟩])
  else if op = "scard" then
    (0, let set := (env.params "set" idx).asStr
        match cl.sCardR set with
        | .error e => .error e
        | .ok v => .ok [⟨[("set", .str set), ("cardinality", v)], none⟩])
  else if op = "zadd" then (0, (zaddBranch cl env idx).2)
  else if op = "zrange" then
    (0, let sortedSet := (env.params "sortedSet" idx).asStr
        let start := (env.params "start" idx).asInt
        let stop := (env.params "stop" idx).asInt
        let withScores := (env.params "withScores" idx).asBool
        match (if withScores then cl.zRangeWithScoresR sortedSet start stop
               else cl.zRangeR sortedSet start stop) with
        | .error e => .error e
        | .ok result =>
          .ok [⟨[("sortedSet", .str sortedSet), ("result", result)], none⟩])
  else if op = "zrem" then
    (0, let sortedSet := (env.params "sortedSet" idx).asStr
        let memberArray := splitWs ((env.params "members" idx).asStr)
        match cl.zRemR sortedSet memberArray with
        | .error e => .error e
        | .ok removed =>
          .ok [⟨[("sortedSet", .str sortedSet), ("removed", removed),
                 ("members", .arr (memberArray.map .str))], none⟩])
  else if op = "zcard" then
    (0, let sortedSet := (env.params "sortedSet" idx).asStr
        match cl.zCardR sortedSet with
        | .error e => .error e
        | .ok v => .ok [⟨[("sortedSet", .str sortedSet), ("cardinality", v)], none⟩])
  else if op = "hlen" then
    (0, let hash := (env.params "hash" idx).asStr
        match cl.hLenR hash with
        | .error e => .error e
        | .ok v => .ok [⟨[("hash", .str hash), ("length", v)], none⟩])
  else if op = "hkeys" then
    (0, let hash := (env.params "hash" idx).asStr
        match cl.hKeysR hash with
        | .error e => .error e
        | .ok v => .ok [⟨[("hash", .str hash), ("keys", v)], none⟩])
  else if op = "hvals" then
    (0, let hash := (env.params "hash" idx).asStr
        match cl.hValsR hash with
        | .error e => .error e
        | .ok v => .ok [⟨[("hash", .str hash), ("values", v)], none⟩])
  else if op = "hexists" then
    (0, let hash := (env.params "hash" idx).asStr
        let field := (env.params "field" idx).asStr
        match cl.hExistsR hash field with
        | .error e => .error e
        | .ok v =>
          .ok [⟨[("hash", .str hash), ("field", .str field), ("exists", v)], none⟩])
  else if op = "eval" then (0, evalBranch cl env idx)
  else (0, .ok [])

/-- The 36 operation ids of the per-item dispatch list in `execute`. -/
def perItemOps : List String :=
  ["delete", "get", "jsonget", "jsonset", "keys", "set", "incr", "publish",
   "push", "pop", "exists", "mget", "mset", "scan", "ttl", "persist",
   "expireat", "getset", "append", "strlen", "blpop", "brpop", "llen",
   "sadd", "srem", "sismember", "scard", "zadd", "zrange", "zrem", "zcard",
   "hlen", "hkeys", "hvals", "hexists", "eval"]

/-- The per-item loop of `execute` from item `i` with `rem` iterations
left: a successful handler appends its records; a failed handler appends
an `{error: message}` record tagged with the item index and continues
under continue-on-fail, and otherwise quits the client once more and
throws the wrapping `NodeOperationError` with the item index attached
(discarding all records).  The first component counts `quit` calls. -/
def itemLoopAux (w : World) (cl : Client) (env : Env) (op : String) :
    ℕ → ℕ → ℕ × Except ExecErr (List OutRec)
  | _, 0 => (0, .ok [])
  | i, rem + 1 =>
    match runBranch w cl env op i with
    | (q, .ok recs) =>
      let r := itemLoopAux w cl env op (i + 1) rem
      (q + r.1, r.2.map (fun rest => recs ++ rest))
    | (q, .error msg) =>
      if env.continueOnFail then
        let r := itemLoopAux w cl env op (i + 1) rem
        (q + r.1, r.2.map (fun rest => ⟨[("error", .str msg)], some i⟩ :: rest))
      else (q + 1, .error ⟨msg, some i⟩)

/-- The per-item loop starting at item `i` (it runs while
`itemIndex < items.length`). -/
def itemLoopFrom (w : World) (cl : Client) (env : Env) (op : String) (i : ℕ) :
    ℕ × Except ExecErr (List OutRec) :=
  itemLoopAux w cl env op i (env.items.length - i)

/-- Embeds `execute` (RedisEnhanced.node.ts): connect and ping once
(modelled as succeeding — a connection failure is surfaced before any
item is processed and is outside every claim); run the `info` handler or
the per-item loop depending on the operation id; operations in neither
branch fall through; finally quit once and return the single output
batch, unless an error aborted the run, in which case only the quits
already performed happened. -/
def redisExecute (w : World) (cl : Client) (env : Env) : ExecResult :=
  let op := (env.params "operation" 0).asStr
  if op = "info" then
    match cl.infoR with
    | .ok result => ⟨1, 1, 1, .ok [[⟨convertInfoToObject result, none⟩]]⟩
    | .error e =>
      if env.continueOnFail then ⟨1, 1, 1, .ok [[⟨[("error", .str e)], none⟩]]⟩
      else ⟨1, 1, 1, .error ⟨e, none⟩⟩
  else if op ∈ perItemOps then
    match itemLoopFrom w cl env op 0 with
    | (q, .ok recs) => ⟨1, 1, q + 1, .ok [recs]⟩
    | (q, .error err) => ⟨1, 1, q, .error err⟩
  else ⟨1, 1, 1, .ok [[]]⟩

/-- Whether a store call carries a given string as a stored payload
(used to show a value was never written verbatim). -/
def callCarries (s : String) : Call → Bool
  | .setStr _ v _ => v == s
  | .hSetField _ _ v => v == s
  | .hSetPairs _ vs => vs.contains s
  | .lSetIdx _ _ v => v == s
  | .sAddVal _ (.s v) => v == s
  | .sAddVal _ _ => false
  | .expireCall _ _ => false
  | .mSetObj ps => ps.any (fun p => p.2 == s)
  | .zAddMembers _ ms => ms.any (fun p => p.2 == s)

/-- A client whose every response rejects; concrete scenarios override
the methods they exercise, exactly like the jest mocks. -/
def clBase : Client :=
  ⟨.error "unused", fun _ => .error "unused", fun _ => .error "unused",
   fun _ => .error "unused", fun _ _ _ => .error "unused", fun _ => .error "unused",
   fun _ => .error "unused", fun _ _ _ => .error "unused", fun _ _ _ => .error "unused",
   fun _ _ => .error "unused", fun _ _ _ => .error "unused", fun _ _ => .error "unused",
   fun _ _ => .error "unused", fun _ => .error "unused", fun _ => .error "unused",
   fun _ _ => .error "unused", fun _ _ => .error "unused", fun _ _ => .error "unused",
   fun _ => .error "unused", fun _ => .error "unused", fun _ => .error "unused",
   fun _ => .error "unused", fun _ => .error "unused", fun _ _ _ => .error "unused",
   fun _ => .error "unused", fun _ => .error "unused", fun _ _ => .error "unused",
   fun _ _ => .error "unused", fun _ _ => .error "unused", fun _ => .error "unused",
   fun _ _ => .error "unused", fun _ _ => .error "unused", fun _ => .error "unused",
   fun _ _ => .error "unused", fun _ _ => .error "unused", fun _ _ => .error "unused",
   fun _ => .error "unused", fun _ _ => .error "unused", fun _ _ => .error "unused",
   fun _ => .error "unused", fun _ _ _ => .error "unused", fun _ _ _ => .error "unused",
   fun _ => .error "unused", fun _ => .error "unused", fun _ => .error "unused",
   fun _ => .error "unused", fun _ _ => .error "unused", fun _ _ _ => .error "unused"⟩

/-- A runtime world whose `JSON.parse` accepts everything as the number
`1` (scenarios that need parse failures override it). -/
def wBase : World :=
  ⟨fun _ => .ok (.num 1), fun _ => "1", fun o _ _ => o⟩

/-- One input item, operation `jsonset`, isolation disabled. -/
def envJsonSetFail : Env :=
  ⟨fun name _ =>
    if name = "operation" then .str "jsonset"
    else if name = "key" then .str "k"
    else if name = "path" then .str "$"
    else if name = "value" then .str "1"
    else if name = "setMode" then .str "default"
    else .str "",
   [[]], false⟩

/-- A client whose raw `sendCommand` rejects. -/
def clJsonFail : Client :=
  { clBase with sendCommandR := fun _ => .error "Redis error" }

/-- Two input items, operation `jsonset`, isolation disabled. -/
def envJsonSetOk : Env :=
  ⟨fun name _ =>
    if name = "operation" then .str "jsonset"
    else if name = "key" then .str "k"
    else if name = "path" then .str "$"
    else if name = "value" then .str "1"
    else if name = "setMode" then .str "default"
    else .str "",
   [[], []], false⟩

/-- A client whose raw `sendCommand` resolves with `"OK"`. -/
def clJsonOk : Client :=
  { clBase with sendCommandR := fun _ => .ok (some "OK") }

/-- The record the `jsonset` handler pushes for item `i` in the
`envJsonSetOk` scenario. -/
def jsonsetOkRec (i : ℕ) : OutRec :=
  ⟨[("key", .str "k"), ("path", .str "$"), ("result", .str "OK"),
    ("success", .bool true)], some i⟩

/-- An operation id that is neither `info` nor in the dispatch list. -/
def envUnknownOp : Env :=
  ⟨fun name _ => if name = "operation" then .str "flushdb" else .str "", [[]], false⟩

/-- One input item, operation `ttl`, isolation enabled. -/
def envTtlIso : Env :=
  ⟨fun name _ =>
    if name = "operation" then .str "ttl"
    else if name = "key" then .str "k"
    else .str "",
   [[]], true⟩

/-- A client whose `ttl` rejects. -/
def clTtlFail : Client :=
  { clBase with ttlR := fun _ => .error "Redis error" }

/-- A world whose `JSON.parse` always reports a syntax error. -/
def wParseFail : World :=
  ⟨fun _ => .error "Unexpected token a in JSON at position 0", fun _ => "1", fun o _ _ => o⟩

/-- A client that accepts every `hSet(key, field, value)` call. -/
def clHSetOk : Client :=
  { clBase with hSetFieldR := fun _ _ _ => .ok (.num 1) }

/-- A client that reports every conditional `set` as unmet (`null`). -/
def clSetNull : Client :=
  { clBase with setR := fun _ _ _ => .ok none }

/-- Odd space-delimited token lists for `mset` and `zadd`. -/
def envOddPairs : Env :=
  ⟨fun name _ =>
    if name = "keyValuePairs" then .str "key1 value1 key2"
    else if name = "scoreMembers" then .str "1 a 2"
    else .str "",
   [[]], false⟩

theorem exceptOkB_map {ε α β : Type} (f : α → β) (r : Except ε α) :
    exceptOkB (r.map f) = exceptOkB r := by
  cases r <;> rfl

theorem itemLoopAux_ok_of_cof (w : World) (cl : Client) (env : Env) (op : String)
    (hcof : env.continueOnFail = true) :
    ∀ (rem i : ℕ), exceptOkB (itemLoopAux w cl env op i rem).2 = true := by
  intro rem
  induction rem with
  | zero => intro i; rfl
  | succ rem ih =>
    intro i
    simp only [itemLoopAux]
    cases hrb : runBranch w cl env op i with
    | mk q r =>
      cases r with
      | ok recs => simp only [exceptOkB_map]; exact ih (i + 1)
      | error msg => simp only [hcof, if_true, exceptOkB_map]; exact ih (i + 1)

theorem itemLoopFrom_prefix (w : World) (cl : Client) (env : Env) (op : String) :
    ∀ (d i : ℕ), i + d ≤ env.items.length →
      (∀ j, i ≤ j → j < i + d → exceptOkB (runBranch w cl env op j).2 = true) →
      ∃ pre q0,
        itemLoopFrom w cl env op i =
          (q0 + (itemLoopFrom w cl env op (i + d)).1,
           ((itemLoopFrom w cl env op (i + d)).2).map (fun l => pre ++ l)) := by
  intro d
  induction d with
  | zero =>
    intro i _ _
    refine ⟨[], 0, ?_⟩
    cases h : itemLoopFrom w cl env op (i + 0) with
    | mk q r =>
      have hi : i + 0 = i := by omega
      rw [hi] at h
      rw [h]
      cases r <;> simp [Except.map]
  | succ d ih =>
    intro i hle hok
    have hi : i < env.items.length := by omega
    have harith : env.items.length - i = (env.items.length - (i + 1)) + 1 := by omega
    have hbranch : exceptOkB (runBranch w cl env op i).2 = true :=
      hok i (le_refl i) (by omega)
    obtain ⟨pre', q0', h'⟩ := ih (i + 1) (by omega)
      (fun j hj1 hj2 => hok j (by omega) (by omega))
    have hstep : i + 1 + d = i + (d + 1) := by omega
    rw [hstep] at h'
    cases hrb : runBranch w cl env op i with
    | mk q r =>
      cases r with
      | error msg => rw [hrb] at hbranch; exact absurd hbranch (by simp [exceptOkB])
      | ok recs =>
        refine ⟨recs ++ pre', q + q0', ?_⟩
        rw [itemLoopFrom, harith]
        simp only [itemLoopAux, hrb]
        rw [show itemLoopAux w cl env op (i + 1) (env.items.length - (i + 1)) =
              itemLoopFrom w cl env op (i + 1) from rfl, h']
        cases hz : (itemLoopFrom w cl env op (i + (d + 1))).2 with
        | ok l => simp [Except.map, List.append_assoc]; omega
        | error e => simp [Except.map]; omega

theorem runHSetFields_all_ok (cl : Client) (keyName : String)
    (hok : ∀ f v, exceptOkB (cl.hSetFieldR keyName f v) = true) :
    ∀ entries, runHSetFields cl keyName entries =
      (entries.map (fun p => Call.hSetField keyName p.1 p.2), .ok ()) := by
  intro entries
  induction entries with
  | nil => rfl
  | cons e rest ih =>
    cases e with
    | mk f v =>
      have h := hok f v
      simp only [runHSetFields]
      cases hr : cl.hSetFieldR keyName f v with
      | error msg => rw [hr] at h; exact absurd h (by simp [exceptOkB])
      | ok j => simp [ih]

/-- C6 counterexample: the claim says a value is parsed as a number **iff**
it consists only of digits and at most one decimal point.  `"1.2.3"` has
two decimal points — so by the claim it should remain a string — yet
`getParsedValue` parses it as the number `1.2` (the regex `/^[\d\.]+$/`
puts no bound on the dots, and `parseFloat` stops at the second one). -/
theorem getParsedValue_claim_refuted :
    getParsedValue "1.2.3" = .num (mkRat 6 5) ∧
    J.isStrB (getParsedValue "1.2.3") = false ∧
    specDigitsAtMostOneDot "1.2.3" = false :=
  ⟨rfl, rfl, by decide⟩

/-- C6 (amended): a value is parsed as a number (possibly `NaN`) if and
only if it is non-empty and consists only of digits and decimal points,
with no bound on the number of decimal points; every other value is kept
as a string. -/
theorem getParsedValue_number_iff (value : String) :
    J.isStrB (getParsedValue value) = false ↔ numericPattern value = true := by
  unfold getParsedValue
  cases h : numericPattern value with
  | true =>
    simp only [h, if_true]
    unfold parseFloat
    cases parseFloatQ value <;> simp [J.isStrB]
  | false =>
    simp [h, J.isStrB]

/-- C7: report parsing is a pure function of its input (determinism is
inherent in the model), and on the normalized input
`"redis_version:6.2.14\nconnected_clients:1\nrole:master\n"` it returns
exactly the mapping `redis_version ↦ 6.2`, `connected_clients ↦ 1`,
`role ↦ "master"` — numeric coercion applied to the numeric tokens only,
the trailing empty line skipped. -/
theorem convertInfoToObject_normalized_example :
    convertInfoToObject "redis_version:6.2.14\nconnected_clients:1\nrole:master\n"
      = [("redis_version", .num (mkRat 31 5)), ("connected_clients", .num 1),
         ("role", .str "master")] := rfl

/-- C5: an `mset` or `zadd` item whose whitespace-split token list (empty
tokens discarded) has odd length fails with the source's
parameter-validation error, and its handler issues zero store calls. -/
theorem pairwise_params_odd_rejected (cl : Client) (env : Env) (idx : ℕ)
    (hm : (splitWs ((env.params "keyValuePairs" idx).asStr)).length % 2 = 1)
    (hz : (splitWs ((env.params "scoreMembers" idx).asStr)).length % 2 = 1) :
    msetBranch cl env idx =
      ([], .error "Key-value pairs must be even number of arguments") ∧
    zaddBranch cl env idx =
      ([], .error "Score-member pairs must be even number of arguments") := by
  constructor
  · simp [msetBranch, hm]
  · simp [zaddBranch, hz]

/-- C5 witness: `"key1 value1 key2"` (and `"1 a 2"` for `zadd`) split
into three tokens; both handlers reject with the validation error and an
empty call log. -/
theorem pairwise_params_odd_rejected_witness :
    (splitWs ((envOddPairs.params "keyValuePairs" 0).asStr)).length % 2 = 1 ∧
    (splitWs ((envOddPairs.params "scoreMembers" 0).asStr)).length % 2 = 1 ∧
    (msetBranch clBase envOddPairs 0 =
      ([], .error "Key-value pairs must be even number of arguments") ∧
     zaddBranch clBase envOddPairs 0 =
      ([], .error "Score-member pairs must be even number of arguments")) :=
  ⟨by decide, by decide,
   pairwise_params_odd_rejected clBase envOddPairs 0 (by decide) (by decide)⟩

/-- C4: a conditional string write (`setMode` `nx` or `xx`) whose store
reply is `null` returns — without throwing — the `SetResult` with
`success: false` and reason `key_already_exists` (nx) or
`key_does_not_exist` (xx), after the single conditional `set` call. -/
theorem setValue_conditional_not_met (w : World) (cl : Client) (keyName : String)
    (value : SVal) (expire : Bool) (ttl : ℤ) (vij : Option Bool) (m : String)
    (hm : m = "nx" ∨ m = "xx")
    (hr : cl.setR keyName (svToString value) (buildSetOpts expire ttl (some m)) = .ok none) :
    setValue w cl keyName value expire ttl (some "string") vij (some m)
      = ([Call.setStr keyName (svToString value) (buildSetOpts expire ttl (some m))],
         .ok ⟨false, "SET " ++ m.toUpper, keyName,
              some (if m = "nx" then "key_already_exists" else "key_does_not_exist"),
              some ("SET " ++ m.toUpper ++ " condition not met: key \"" ++ keyName ++
                "\" " ++ (if m = "nx" then "already exists" else "does not exist"))⟩) := by
  rcases hm with rfl | rfl <;>
    simp [setValue, resolveSetType, stringWrite, optsNonempty, buildSetOpts, hr,
      condFailResult] <;>
    simp [buildSetOpts] at hr <;> simp [hr]

/-- C4 witness: a concrete `SET NX` against a store answering `null`. -/
theorem setValue_conditional_not_met_witness :
    ("nx" = "nx" ∨ ("nx" : String) = "xx") ∧
    clSetNull.setR "k1" "v1" (buildSetOpts false (-1) (some "nx")) = .ok none ∧
    setValue wBase clSetNull "k1" (.s "v1") false (-1) (some "string") (some false)
        (some "nx")
      = ([Call.setStr "k1" "v1" (buildSetOpts false (-1) (some "nx"))],
         .ok ⟨false, "SET " ++ "nx".toUpper, "k1",
              some (if "nx" = "nx" then "key_already_exists" else "key_does_not_exist"),
              some ("SET " ++ "nx".toUpper ++ " condition not met: key \"" ++ "k1" ++
                "\" " ++ (if "nx" = "nx" then "already exists" else "does not exist"))⟩) :=
  ⟨Or.inl rfl, rfl,
   setValue_conditional_not_met wBase clSetNull "k1" (.s "v1") false (-1) (some false)
     "nx" (Or.inl rfl) rfl⟩

/-- C10: when `setValue` resolves to the `hash`, `list` or `sets` type,
the conditional set mode has no effect on the store calls issued, and any
returned (non-thrown) result is the `success: true` record — the
conditional-failure result can only arise on the string path. -/
theorem setValue_nonstring_ignores_mode (w : World) (cl : Client) (keyName : String)
    (value : SVal) (expire : Bool) (ttl : ℤ) (t : String) (vij : Option Bool)
    (m1 m2 : Option String)
    (ht : t = "hash" ∨ t = "list" ∨ t = "sets") :
    (setValue w cl keyName value expire ttl (some t) vij m1).1 =
      (setValue w cl keyName value expire ttl (some t) vij m2).1 ∧
    (∀ r, (setValue w cl keyName value expire ttl (some t) vij m1).2 = .ok r →
      r.success = true) := by
  have key : ∀ u : String, u = "hash" ∨ u = "list" ∨ u = "sets" →
      (setValue w cl keyName value expire ttl (some u) vij m1).1 =
        (setValue w cl keyName value expire ttl (some u) vij m2).1 ∧
      (∀ r, (setValue w cl keyName value expire ttl (some u) vij m1).2 = .ok r →
        r.success = true) := by
    intro u hu
    have hne : u ≠ "string" := by rcases hu with rfl | rfl | rfl <;> decide
    have hauto : u ≠ "automatic" := by rcases hu with rfl | rfl | rfl <;> decide
    have hres : ∀ mo : Option String,
        setValue w cl keyName value expire ttl (some u) vij mo =
          (match nonStringWrite w cl keyName value u vij with
           | (cs, .error e) => (cs, .error e)
           | (cs, .ok ()) =>
             match expirePhase cl keyName expire ttl u with
             | (cs2, .error e) => (cs ++ cs2, .error e)
             | (cs2, .ok ()) => (cs ++ cs2, .ok (successResult mo keyName))) := by
      intro mo
      rcases hu with rfl | rfl | rfl <;> simp [setValue, resolveSetType]
    rw [hres m1, hres m2]
    cases hnw : nonStringWrite w cl keyName value u vij with
    | mk cs st =>
      cases st with
      | error e => simp
      | ok unitv =>
        cases unitv
        cases hep : expirePhase cl keyName expire ttl u with
        | mk cs2 st2 =>
          cases st2 with
          | error e => simp
          | ok unitv2 =>
            cases unitv2
            constructor
            · rfl
            · intro r hrr
              simp only [Except.ok.injEq] at hrr
              rw [← hrr]
              rfl
  exact key t ht

/-- C10 witness: a `sets`-typed write: the call log is independent of the
two set modes compared and any returned result is a success. -/
theorem setValue_nonstring_ignores_mode_witness :
    (("sets" : String) = "hash" ∨ ("sets" : String) = "list" ∨ ("sets" : String) = "sets") ∧
    ((setValue wBase clBase "k" (.s "v") false (-1) (some "sets") none (some "nx")).1 =
      (setValue wBase clBase "k" (.s "v") false (-1) (some "sets") none (some "always")).1 ∧
     (∀ r, (setValue wBase clBase "k" (.s "v") false (-1) (some "sets") none (some "nx")).2
        = .ok r → r.success = true)) :=
  ⟨Or.inr (Or.inr rfl),
   setValue_nonstring_ignores_mode wBase clBase "k" (.s "v") false (-1) "sets" none
     (some "nx") (some "always") (Or.inr (Or.inr rfl))⟩

/-- C8 counterexample: the claim says a hash write whose JSON flag is set
but whose string value fails to parse stores the raw string unchanged as
a single opaque value.  In fact the fallback assigns the raw string to
`values`, and `Object.keys` on a JS string enumerates its character
indices: for the unparseable value `"ab"` the code issues **two** `hSet`
calls — field `"0"` value `"a"` and field `"1"` value `"b"` — and no
issued call carries the string `"ab"` at all, so nothing is stored
unchanged. -/
theorem setValue_hash_badjson_claim_refuted :
    (setValue wParseFail clHSetOk "h" (.s "ab") false (-1) (some "hash") (some true)
        (some "always")).1
      = [Call.hSetField "h" "0" "a", Call.hSetField "h" "1" "b"] ∧
    (setValue wParseFail clHSetOk "h" (.s "ab") false (-1) (some "hash") (some true)
        (some "always")).1.length = 2 ∧
    ((setValue wParseFail clHSetOk "h" (.s "ab") false (-1) (some "hash") (some true)
        (some "always")).1.all (fun c => !(callCarries "ab" c))) = true :=
  ⟨rfl, rfl, rfl⟩

/-- C8 (amended): a hash-typed write whose value is flagged as JSON but
fails to parse falls back to enumerating the raw string's indexed
characters (JS `Object.keys` on a string), issuing one
`hSet(key, index, character)` call per character — the string is
decomposed character-wise, not stored as a single opaque value — and,
when every `hSet` resolves, the write still returns the success
record. -/
theorem setValue_hash_badjson_decomposes (w : World) (cl : Client) (keyName s : String)
    (ttl : ℤ) (sm : Option String) (e : String)
    (hparse : w.jsonParse s = .error e)
    (hok : ∀ f v, exceptOkB (cl.hSetFieldR keyName f v) = true) :
    setValue w cl keyName (.s s) false ttl (some "hash") (some true) sm
      = ((stringEntries s).map (fun p => Call.hSetField keyName p.1 p.2),
         .ok (successResult sm keyName)) := by
  simp [setValue, resolveSetType, nonStringWrite, hashWrite, hparse, expirePhase,
    runHSetFields_all_ok cl keyName hok]

/-- C8 witness: the amended behaviour at the concrete unparseable value
`"ab"`. -/
theorem setValue_hash_badjson_decomposes_witness :
    wParseFail.jsonParse "ab" = .error "Unexpected token a in JSON at position 0" ∧
    setValue wParseFail clHSetOk "h" (.s "ab") false (-1) (some "hash") (some true)
        (some "always")
      = ((stringEntries "ab").map (fun p => Call.hSetField "h" p.1 p.2),
         .ok (successResult (some "always") "h")) :=
  ⟨rfl,
   setValue_hash_badjson_decomposes wParseFail clHSetOk "h" "ab" (-1) (some "always")
     "Unexpected token a in JSON at position 0" rfl (fun _ _ => rfl)⟩

/-- C9: an operation id that is neither `info` nor one of the 36
dispatch-list ids matches no branch of `execute`: the run still connects,
pings and quits exactly once and returns the single empty batch `[[]]`
without raising. -/
theorem execute_unknown_operation_noop (w : World) (cl : Client) (env : Env)
    (h1 : (env.params "operation" 0).asStr ≠ "info")
    (h2 : (env.params "operation" 0).asStr ∉ perItemOps) :
    redisExecute w cl env = ⟨1, 1, 1, .ok [[]]⟩ := by
  simp only [redisExecute]
  rw [if_neg h1, if_neg h2]

/-- C9 witness: the unknown operation id `"flushdb"`. -/
theorem execute_unknown_operation_noop_witness :
    (envUnknownOp.params "operation" 0).asStr ≠ "info" ∧
    (envUnknownOp.params "operation" 0).asStr ∉ perItemOps ∧
    redisExecute wBase clBase envUnknownOp = ⟨1, 1, 1, .ok [[]]⟩ :=
  ⟨by decide, by decide,
   execute_unknown_operation_noop wBase clBase envUnknownOp (by decide) (by decide)⟩

/-- C1 (failing input): with operation `jsonset`, one input item, the
`JSON.SET` store call rejecting and continue-on-fail disabled, `execute`
releases the connection **twice** — the `jsonset` handler's inner catch
quits and rethrows, and the per-item loop's catch quits again before
throwing — refuting "closed at most once / released exactly once on every
exit path".  (`quitCount = 2` below; the run aborts with the wrapped
error.) -/
theorem execute_jsonset_failure_double_quit :
    redisExecute wBase clJsonFail envJsonSetFail
      = ⟨1, 1, 2, .error ⟨"Redis error", some 0⟩⟩ := rfl

/-- C2 (failing input): with operation `jsonset` and two input items (all
store calls succeeding), the run is not aborted and yet produces **four**
output records instead of two: the `jsonset` handler iterates over the
whole batch inside each pass of the per-item loop, so every item index is
reported `items.length` times. -/
theorem execute_jsonset_duplicates_outputs :
    envJsonSetOk.items.length = 2 ∧
    redisExecute wBase clJsonOk envJsonSetOk
      = ⟨1, 1, 1, .ok [[jsonsetOkRec 0, jsonsetOkRec 1, jsonsetOkRec 0, jsonsetOkRec 1]]⟩ :=
  ⟨rfl, rfl⟩

/-- C3: when the handler for an in-range item fails (all earlier items
having succeeded): with failure isolation enabled, `execute` appends the
`{error: message}` record tagged with that item's index at that item's
position and continues with the items after it (`rest` below is exactly
the continuation's output); with isolation disabled, the failure
propagates as the `NodeOperationError` carrying the item index, no output
at all is produced — in particular none for any item after the failure
point — and the connection is closed (`quit` ran at least once; C1
settles how many times exactly). -/
theorem dispatcher_failure_isolation (w : World) (cl : Client) (env : Env)
    (i : ℕ) (msg : String)
    (hcount : i < env.items.length)
    (hop : (env.params "operation" 0).asStr ∈ perItemOps)
    (herr : (runBranch w cl env ((env.params "operation" 0).asStr) i).2 = .error msg)
    (hprev : ∀ j, j < i →
      exceptOkB (runBranch w cl env ((env.params "operation" 0).asStr) j).2 = true) :
    (env.continueOnFail = true →
      ∃ pre rest,
        (itemLoopFrom w cl env ((env.params "operation" 0).asStr) (i + 1)).2 = .ok rest ∧
        (redisExecute w cl env).outcome =
          .ok [pre ++ (⟨[("error", .str msg)], some i⟩ : OutRec) :: rest]) ∧
    (env.continueOnFail = false →
      (redisExecute w cl env).outcome = .error ⟨msg, some i⟩ ∧
      1 ≤ (redisExecute w cl env).quitCount) := by
  set op := (env.params "operation" 0).asStr with hopdef
  have hinfo : op ≠ "info" := by
    intro h
    rw [h] at hop
    exact absurd hop (by decide)
  have harith : env.items.length - i = (env.items.length - (i + 1)) + 1 := by omega
  have hrb : runBranch w cl env op i = ((runBranch w cl env op i).1, .error msg) := by
    rw [← herr]
  have hstep : itemLoopFrom w cl env op i =
      (if env.continueOnFail then
        ((runBranch w cl env op i).1 + (itemLoopFrom w cl env op (i + 1)).1,
         ((itemLoopFrom w cl env op (i + 1)).2).map
           (fun rest => (⟨[("error", .str msg)], some i⟩ : OutRec) :: rest))
      else ((runBranch w cl env op i).1 + 1, .error ⟨msg, some i⟩)) := by
    rw [itemLoopFrom, harith]
    simp only [itemLoopAux]
    rw [hrb]
    rfl
  have hexec : redisExecute w cl env =
      (match itemLoopFrom w cl env op 0 with
       | (q, .ok recs) => ⟨1, 1, q + 1, .ok [recs]⟩
       | (q, .error err) => ⟨1, 1, q, .error err⟩) := by
    simp only [redisExecute]
    rw [if_neg hinfo, if_pos hop]
  obtain ⟨pre, q0, hpre⟩ := itemLoopFrom_prefix w cl env op i 0
    (by omega) (fun j hj1 hj2 => hprev j (by omega))
  simp only [Nat.zero_add] at hpre
  constructor
  · intro hcof
    have hLok : exceptOkB (itemLoopFrom w cl env op (i + 1)).2 = true :=
      itemLoopAux_ok_of_cof w cl env op hcof (env.items.length - (i + 1)) (i + 1)
    cases hr2 : (itemLoopFrom w cl env op (i + 1)).2 with
    | error e =>
      rw [hr2] at hLok
      exact absurd hLok (by simp [exceptOkB])
    | ok rest =>
      refine ⟨pre, rest, rfl, ?_⟩
      rw [hexec, hpre, hstep]
      simp only [hcof, if_true]
      rw [hr2]
      simp [Except.map]
  · intro hcof
    rw [hexec, hpre, hstep]
    simp only [hcof, if_false]
    simp [Except.map]
    omega

/-- C3 witness: operation `ttl`, one item whose `ttl` call rejects,
isolation enabled: the run emits exactly the error record tagged with
index 0 and the (empty) continuation. -/
theorem dispatcher_failure_isolation_witness :
    (envTtlIso.continueOnFail = true →
      ∃ pre rest,
        (itemLoopFrom wBase clTtlFail envTtlIso
            ((envTtlIso.params "operation" 0).asStr) (0 + 1)).2 = .ok rest ∧
        (redisExecute wBase clTtlFail envTtlIso).outcome =
          .ok [pre ++ (⟨[("error", .str "Redis error")], some 0⟩ : OutRec) :: rest]) ∧
    (envTtlIso.continueOnFail = false →
      (redisExecute wBase clTtlFail envTtlIso).outcome = .error ⟨"Redis error", some 0⟩ ∧
      1 ≤ (redisExecute wBase clTtlFail envTtlIso).quitCount) :=
  dispatcher_failure_isolation wBase clTtlFail envTtlIso 0 "Redis error"
    (by decide) (by decide) rfl (fun j hj => absurd hj (Nat.not_lt_zero j))
